import Mathlib

/-!
Shallow embedding of `src/parse_roster_pdfs.py` (MLS Club Roster Profile
PDF parser).  Pages are modelled as the already-extracted text plus table
grids (the input contract of the spec); cells are nullable strings.  The
three `re.search` patterns of the source are modelled as executable
scanners with the same matching semantics on the relevant inputs.
-/

namespace RosterParse

/-- Characters matched by the Python regex class `\s`. -/
def isPySpace (c : Char) : Bool :=
  c = ' ' || c = '\t' || c = '\n' || c = '\r' || c = '\x0b' || c = '\x0c'

/-- List-level model of Python `str.strip()`: drop `\s` characters from
both ends. -/
def stripL (l : List Char) : List Char :=
  ((l.dropWhile isPySpace).reverse.dropWhile isPySpace).reverse

/-- Python `str.strip()`. -/
def pyStrip (s : String) : String := ⟨stripL s.data⟩

/-- Python `str.upper()` (ASCII, as used on the header/cell text here). -/
def pyUpper (s : String) : String := ⟨s.data.map Char.toUpper⟩

/-- Boolean infix test on lists: does `pat` occur contiguously in `l`? -/
def isInfixL (pat : List Char) : List Char → Bool
  | [] => pat.isEmpty
  | c :: rest => pat.isPrefixOf (c :: rest) || isInfixL pat rest

/-- Python `pat in s` substring test. -/
def strContains (s pat : String) : Bool := isInfixL pat.data s.data

/-- Python truthiness default `x or ''` for an optional string. -/
def pyOrEmpty (o : Option String) : String :=
  match o with
  | none => ""
  | some s => if s = "" then "" else s

/-- A table cell as extracted by pdfplumber: nullable string. -/
abbrev Cell := Option String

abbrev TRow := List Cell

abbrev TTable := List TRow

/-- One page of the document: its extracted text and extracted tables. -/
structure Page where
  text : String
  tables : List TTable
deriving Repr, DecidableEq

/-- The mutable cross-page context of `parse_roster_pdf`
(`current_team`, `current_roster_model`, `current_gam`). -/
structure PageContext where
  team : Option String
  model : Option String
  gam : Option String
deriving Repr, DecidableEq

/-! ### The three context regexes of lines 40-53 -/

/-- Characters of the regex class `[A-Z\s&\.FC]` of the team pattern. -/
def isTeamChar (c : Char) : Bool :=
  c.isUpper || isPySpace c || c = '&' || c = '.' || c = 'F' || c = 'C'

def rosterLit : String := "ROSTER PROFILE"

/-- One anchored attempt of `^([A-Z\s&\.FC]+)\s*\|\s*ROSTER PROFILE` at a
line start: the greedy group plus the following `\s*` together cover
exactly the maximal run of class characters (whitespace is inside the
class), which must be non-empty and be followed by `|`, optional
whitespace and the literal.  The captured group is the full run. -/
def teamTry (cs : List Char) : Option (List Char) :=
  let run := cs.takeWhile isTeamChar
  if run.isEmpty then none
  else
    match cs.drop run.length with
    | '|' :: rest =>
        if rosterLit.data.isPrefixOf (rest.dropWhile isPySpace) then some run else none
    | _ => none

/-- `re.search` with `re.MULTILINE` for the team pattern: try every
line-start position left to right (`atStart` records whether the current
position follows a newline or is the start of the text). -/
def teamScanAux : Bool → List Char → Option (List Char)
  | _, [] => none
  | atStart, c :: rest =>
    if atStart then
      match teamTry (c :: rest) with
      | some r => some r
      | none => teamScanAux (c = '\n') rest
    else teamScanAux (c = '\n') rest

/-- The team capture of line 40 (group 1, not yet stripped). -/
def teamMatch (text : String) : Option String :=
  (teamScanAux true text.data).map (fun l => ⟨l⟩)

/-- `re.search` for a regex of the form `<literal><tail>`: try the tail
attempt at every position where the literal occurs, left to right. -/
def searchLit {α : Type} (lit : List Char) (att : List Char → Option α) :
    List Char → Option α
  | [] => none
  | c :: rest =>
    if lit.isPrefixOf (c :: rest) then
      match att ((c :: rest).drop lit.length) with
      | some v => some v
      | none => searchLit lit att rest
    else searchLit lit att rest

def modelLit : String := "Roster Construction Model:"

/-- The tail `\s*(.+)` of the roster-model pattern (line 46).  Greedy
`\s*` takes the whole whitespace run; if something follows, `.+` captures
up to the end of the line.  If the rest of the text is all whitespace,
the engine backtracks `\s*` until the next character is not a newline,
so the capture becomes the last non-newline character (everything after
it is newlines). -/
def modelAttempt (s : List Char) : Option (List Char) :=
  let rest := s.dropWhile isPySpace
  match rest with
  | [] =>
      match s.reverse.dropWhile (fun c => c = '\n') with
      | [] => none
      | c :: _ => some [c]
  | _ => some (rest.takeWhile (fun c => c ≠ '\n'))

/-- The roster-model capture of line 46 (group 1, not yet stripped). -/
def modelMatch (text : String) : Option String :=
  (searchLit modelLit.data modelAttempt text.data).map (fun l => ⟨l⟩)

def gamLit : String := "2025 GAM AVAILABLE"

def isDigitComma (c : Char) : Bool := c.isDigit || c = ','

/-- The `\$?` part of the GAM pattern: consume one leading dollar sign
when present. -/
def dropDollar (l : List Char) : List Char :=
  match l with
  | '$' :: t => t
  | _ => l

/-- The tail `\s*\$?([\d,]+)` of the GAM pattern (line 51): skip
whitespace, optionally one `$`, then require and capture a maximal
non-empty run of digit-or-comma characters (no backtracking can help
since whitespace is neither `$` nor in `[\d,]`). -/
def gamAttempt (s : List Char) : Option (List Char) :=
  let d := (dropDollar (s.dropWhile isPySpace)).takeWhile isDigitComma
  if d.isEmpty then none else some d

/-- The GAM capture of line 51 (group 1, before the comma strip). -/
def gamMatch (text : String) : Option String :=
  (searchLit gamLit.data gamAttempt text.data).map (fun l => ⟨l⟩)

/-- Lines 40-53: apply the three pattern extractions to a page text,
each field sticky when its pattern does not match. -/
def updateContext (ctx : PageContext) (text : String) : PageContext :=
  { team :=
      match teamMatch text with
      | some t => some (pyStrip t)
      | none => ctx.team
    model :=
      match modelMatch text with
      | some m => some (pyStrip m)
      | none => ctx.model
    gam :=
      match gamMatch text with
      | some g => some ⟨g.data.filter (fun c => c ≠ ',')⟩
      | none => ctx.gam }

/-! ### Header resolution (lines 62-107) -/

/-- Line 71/78: `str(h).upper() if h else ''` on a nullable cell. -/
def cellUpper (c : Cell) : String :=
  match c with
  | none => ""
  | some s => if s = "" then "" else pyUpper s

def upperRow (r : TRow) : List String := r.map cellUpper

/-- Python `' '.join(headers)`. -/
def joinSp (hs : List String) : String := String.intercalate " " hs

/-- Lines 66-81: try row 0 (when non-empty) then row 1 as the header row;
a row qualifies when the joined uppercased cells contain
`ROSTER DESIGNATION`.  Returns the uppercased header cells and the
`start_row` offset of the first data row. -/
def headerTry0 (table : TTable) : Option (List String × Nat) :=
  match table.headD [] with
  | [] => none
  | r0 =>
      if strContains (joinSp (upperRow r0)) "ROSTER DESIGNATION" then
        some (upperRow r0, 1)
      else none

def resolveHeader (table : TTable) : Option (List String × Nat) :=
  match headerTry0 table with
  | some h => some h
  | none =>
      if table.length > 1 then
        if strContains (joinSp (upperRow (table.getD 1 []))) "ROSTER DESIGNATION" then
          some (upperRow (table.getD 1 []), 2)
        else none
      else none

/-- The five column-index variables of lines 88-92. -/
structure ColIdx where
  name_idx : Option Nat
  designation_idx : Option Nat
  status_idx : Option Nat
  contract_idx : Option Nat
  option_idx : Option Nat
deriving Repr, DecidableEq

def ColIdx.init : ColIdx := ⟨none, none, none, none, none⟩

/-- One iteration of the header-cell loop of lines 94-104. -/
def colStep (acc : ColIdx) (i : Nat) (h : String) : ColIdx :=
  if strContains h "NAME" && acc.name_idx.isNone then
    { acc with name_idx := some i }
  else if strContains h "DESIGNATION" then
    { acc with designation_idx := some i }
  else if strContains h "STATUS" then
    { acc with status_idx := some i }
  else if strContains h "CONTRACT" && strContains h "THRU" then
    { acc with contract_idx := some i }
  else if strContains h "OPTION" then
    { acc with option_idx := some i }
  else acc

def findColsFrom (acc : ColIdx) (i : Nat) : List String → ColIdx
  | [] => acc
  | h :: t => findColsFrom (colStep acc i h) (i + 1) t

/-- The `for i, h in enumerate(headers)` loop of lines 94-104. -/
def findCols (headers : List String) : ColIdx := findColsFrom ColIdx.init 0 headers

/-! ### Row classification (lines 110-175) -/

def skipTerms : List String :=
  ["NAME", "SENIOR ROSTER", "SUPPLEMENTAL ROSTER", "SUPPLEMENTAL SPOT",
   "OFF-ROSTER", "DESIGNATED PLAYERS", "U22 INITIATIVE",
   "UNAVAILABLE PLAYERS", "NO."]

/-- The defensive field extraction of lines 129-147: role absent from the
column map, index out of range, or falsy cell all yield the empty
string; otherwise the stripped cell text. -/
def extractField (row : TRow) (idx : Option Nat) : String :=
  match idx with
  | none => ""
  | some i =>
      if i < row.length then
        match row.getD i none with
        | none => ""
        | some s => if s = "" then "" else pyStrip s
      else ""

/-- The category chain of lines 150-160. -/
def categorize (designation : String) : String :=
  if strContains designation "Designated Player" || strContains designation "Young Designated" then
    "Designated Player"
  else if strContains designation "U22 Initiative" then "U22 Initiative"
  else if strContains designation "TAM Player" then "TAM Player"
  else if strContains designation "Homegrown" then "Homegrown"
  else if strContains designation "Generation adidas" then "Generation Adidas"
  else "Standard"

/-- The player dictionary of lines 163-173. -/
structure PlayerRecord where
  team : String
  name : String
  roster_designation : String
  current_status : String
  contract_thru : String
  option_years : String
  category : String
  roster_model : String
  team_gam_2025 : String
deriving Repr, DecidableEq

/-- Lines 110-175, one data row: `None` when the row is skipped, else the
assembled record. -/
def rowRecord (team : String) (model gam : Option String) (name_idx : Nat)
    (cols : ColIdx) (row : TRow) : Option PlayerRecord :=
  if row.length ≤ name_idx then none
  else
    match row.getD name_idx none with
    | none => none
    | some pn =>
      if pn = "" then none
      else if pyStrip pn = "" then none
      else if skipTerms.any (fun t => strContains (pyUpper (pyStrip pn)) t) then none
      else
        some
          { team := team
            name := pyStrip pn
            roster_designation := extractField row cols.designation_idx
            current_status := extractField row cols.status_idx
            contract_thru := extractField row cols.contract_idx
            option_years := extractField row cols.option_idx
            category := categorize (extractField row cols.designation_idx)
            roster_model := pyOrEmpty model
            team_gam_2025 := pyOrEmpty gam }

/-- Lines 62-175 for a single table: the `len(table) < 2` guard of line
62, header resolution, the `NAME` check of line 84, the `name_idx`
check of line 106, then the row loop from `start_row`. -/
def tableRecords (team : String) (model gam : Option String) (table : TTable) :
    List PlayerRecord :=
  if table.length < 2 then []
  else
    match resolveHeader table with
    | none => []
    | some (headers, start_row) =>
        if strContains (joinSp headers) "NAME" then
          match (findCols headers).name_idx with
          | none => []
          | some nidx =>
              (table.drop start_row).filterMap
                (rowRecord team model gam nidx (findCols headers))
        else []

def tablesRecords (team : String) (model gam : Option String) :
    List TTable → List PlayerRecord
  | [] => []
  | tb :: tbs => tableRecords team model gam tb ++ tablesRecords team model gam tbs

/-- Lines 55-59: no records without a truthy team; otherwise classify
every table of the page under the current context. -/
def pageRecords (ctx : PageContext) (p : Page) : List PlayerRecord :=
  match ctx.team with
  | none => []
  | some t => if t = "" then [] else tablesRecords t ctx.model ctx.gam p.tables

/-- One iteration of the page loop (lines 35-175): an empty text skips
the page before any context update. -/
def processPage (ctx : PageContext) (p : Page) : PageContext × List PlayerRecord :=
  if p.text = "" then (ctx, [])
  else
    let ctx2 := updateContext ctx p.text
    (ctx2, pageRecords ctx2 p)

def runPages (ctx : PageContext) : List Page → List PlayerRecord
  | [] => []
  | p :: ps =>
      let st := processPage ctx p
      st.2 ++ runPages st.1 ps

/-- `parse_roster_pdf`: skip the three cover pages, then walk the rest
with the sticky context. -/
def parseRosterPdf (pages : List Page) : List PlayerRecord :=
  runPages ⟨none, none, none⟩ (pages.drop 3)

/-! ### CSV output (lines 163-173 keys, 207-215) -/

/-- The dictionary keys of lines 163-173, in insertion order: these are
the DataFrame columns of line 208. -/
def playerDictKeys : List String :=
  ["team", "name", "roster_designation", "current_status", "contract_thru",
   "option_years", "category", "roster_model", "team_gam_2025"]

/-- One CSV data row for a record, fields in key order. -/
def recordToRow (r : PlayerRecord) : List String :=
  [r.team, r.name, r.roster_designation, r.current_status, r.contract_thru,
   r.option_years, r.category, r.roster_model, r.team_gam_2025]

/-- `df.to_csv(output_file, index=False)` of line 215: a header row of
the column names, then one row per record, no index column. -/
def csvTable (players : List PlayerRecord) : List (List String) :=
  playerDictKeys :: players.map recordToRow

/-! ### Analysis vocabulary for the header-role claims -/

/-- Index of the first element satisfying `p`. -/
def firstIdx (p : String → Bool) : List String → Option Nat
  | [] => none
  | h :: t => if p h then some 0 else (firstIdx p t).map (· + 1)

/-- The five semantic header roles. -/
inductive HRole where
  | nm
  | desig
  | status
  | contract
  | opt
deriving DecidableEq, Repr

/-- Which branch of the `if`/`elif` chain of lines 95-104 a header cell
`h` reaches, given whether the name role is already taken when the cell
is examined. -/
def cellBranch (taken : Bool) (h : String) : Option HRole :=
  if strContains h "NAME" && !taken then some .nm
  else if strContains h "DESIGNATION" then some .desig
  else if strContains h "STATUS" then some .status
  else if strContains h "CONTRACT" && strContains h "THRU" then some .contract
  else if strContains h "OPTION" then some .opt
  else none

/-- Project the column index recorded for a role. -/
def roleField (c : ColIdx) : HRole → Option Nat
  | .nm => c.name_idx
  | .desig => c.designation_idx
  | .status => c.status_idx
  | .contract => c.contract_idx
  | .opt => c.option_idx

/-- Whether some header cell strictly before position `i` contains
`NAME` (i.e. whether the name role is taken when cell `i` is examined). -/
def nameBefore (hs : List String) (i : Nat) : Bool :=
  (hs.take i).any (fun h => strContains h "NAME")

/-- The index of the last header cell whose branch is role `r`. -/
def lastRole (hs : List String) (r : HRole) : Option Nat :=
  ((List.range hs.length).filter
    (fun i => decide (cellBranch (nameBefore hs i) (hs.getD i "") = some r))).getLast?

/-! ### Concrete inputs used by the claims -/

/-- The minimal synthetic roster table of the round-trip property. -/
def minimalTable : TTable :=
  [[some "NAME", some "ROSTER DESIGNATION", some "STATUS"],
   [some "J. Smith", some "Homegrown", some "Active"]]

def rosterTableFor (nm : String) : TTable :=
  [[some "NAME", some "ROSTER DESIGNATION", some "STATUS"],
   [some nm, some "Homegrown", some "Active"]]

def blankPage : Page := ⟨"", []⟩

/-- Page A of the stickiness scenario: a team header for `FC X`, no
tables. -/
def pageA : Page := ⟨"FC X | ROSTER PROFILE", []⟩

/-- Page B: no team header, but a roster table. -/
def pageB : Page := ⟨"B", [rosterTableFor "Bob"]⟩

/-- Page C: again no team header, another roster table. -/
def pageC : Page := ⟨"C", [rosterTableFor "Cara"]⟩

/-- Three cover pages (skipped), then the scenario pages A, B, C. -/
def stickyPages : List Page := [blankPage, blankPage, blankPage, pageA, pageB, pageC]

/-- The record extracted from page B under a context whose team is `X`. -/
def bobUnderX : PlayerRecord :=
  { team := "X", name := "Bob", roster_designation := "Homegrown",
    current_status := "Active", contract_thru := "", option_years := "",
    category := "Homegrown", roster_model := "", team_gam_2025 := "" }

/-- The record extracted from page B inside the sticky scenario. -/
def bobSticky : PlayerRecord :=
  { team := "FC X", name := "Bob", roster_designation := "Homegrown",
    current_status := "Active", contract_thru := "", option_years := "",
    category := "Homegrown", roster_model := "", team_gam_2025 := "" }

/-! ## Helper lemmas -/

lemma stripL_eq_rdrop (l : List Char) :
    stripL l = List.rdropWhile isPySpace (List.dropWhile isPySpace l) := rfl

lemma dropWhile_head_not {α : Type} (p : α → Bool) :
    ∀ (l : List α) (a : α) (as : List α), l.dropWhile p = a :: as → ¬ p a := by
  intro l
  induction l with
  | nil => intro a as h; simp [List.dropWhile] at h
  | cons x xs ih =>
    intro a as h
    rw [List.dropWhile_cons] at h
    by_cases hx : p x
    · rw [if_pos hx] at h; exact ih a as h
    · rw [if_neg hx] at h
      cases h
      exact hx

lemma dropWhile_stripL (l : List Char) :
    (stripL l).dropWhile isPySpace = stripL l := by
  rcases hpre : stripL l with _ | ⟨a, as⟩
  · rfl
  · obtain ⟨t, ht⟩ :=
      List.rdropWhile_prefix isPySpace (List.dropWhile isPySpace l)
    rw [← stripL_eq_rdrop, hpre] at ht
    have hdw : List.dropWhile isPySpace l = a :: (as ++ t) := by
      rw [← ht]; rfl
    have hna := dropWhile_head_not isPySpace l a (as ++ t) hdw
    rw [List.dropWhile_cons, if_neg hna]

lemma stripL_idem (l : List Char) : stripL (stripL l) = stripL l := by
  rw [stripL_eq_rdrop (stripL l), dropWhile_stripL, stripL_eq_rdrop l,
    List.rdropWhile_idempotent]

lemma pyStrip_idem (s : String) : pyStrip (pyStrip s) = pyStrip s :=
  congrArg String.mk (stripL_idem s.data)

lemma searchLit_none {α : Type} (lit : List Char) (att : List Char → Option α) :
    ∀ cs : List Char, isInfixL lit cs = false → searchLit lit att cs = none := by
  intro cs
  induction cs with
  | nil => intro h; rfl
  | cons c rest ih =>
    intro h
    rw [isInfixL] at h
    rcases Bool.or_eq_false_iff.mp h with ⟨h1, h2⟩
    rw [searchLit, if_neg (by simp [h1]), ih h2]

lemma searchLit_some {α : Type} (lit : List Char) (att : List Char → Option α) :
    ∀ (cs : List Char) (v : α), searchLit lit att cs = some v →
      ∃ pre suf : List Char, cs = pre ++ lit ++ suf ∧ att suf = some v := by
  intro cs
  induction cs with
  | nil => intro v h; exact Option.noConfusion h
  | cons c rest ih =>
    intro v h
    rw [searchLit] at h
    by_cases hp : lit.isPrefixOf (c :: rest) = true
    · rw [if_pos hp] at h
      obtain ⟨t, ht⟩ := List.isPrefixOf_iff_prefix.mp hp
      cases hatt : att ((c :: rest).drop lit.length) with
      | some w =>
        rw [hatt] at h
        refine ⟨[], t, by rw [List.nil_append, ← ht], ?_⟩
        have hdrop : (c :: rest).drop lit.length = t := by
          rw [← ht, List.drop_left]
        rw [← hdrop, hatt]
        exact h
      | none =>
        rw [hatt] at h
        obtain ⟨pre, suf, hcs, hv⟩ := ih v h
        exact ⟨c :: pre, suf, by simp [hcs], hv⟩
    · rw [if_neg hp] at h
      obtain ⟨pre, suf, hcs, hv⟩ := ih v h
      exact ⟨c :: pre, suf, by simp [hcs], hv⟩

lemma rowRecord_some_props {team : String} {model gam : Option String} {nidx : Nat}
    {cols : ColIdx} {row : TRow} {r : PlayerRecord}
    (h : rowRecord team model gam nidx cols row = some r) :
    r.team = team ∧ r.roster_model = pyOrEmpty model ∧
    r.team_gam_2025 = pyOrEmpty gam ∧ r.name ≠ "" ∧ pyStrip r.name = r.name := by
  unfold rowRecord at h
  split at h
  · exact Option.noConfusion h
  · split at h
    · exact Option.noConfusion h
    · rename_i pn heq
      split at h
      · exact Option.noConfusion h
      · split at h
        · exact Option.noConfusion h
        · split at h
          · exact Option.noConfusion h
          · rename_i h3 h4
            obtain rfl := (Option.some.inj h).symm
            exact ⟨rfl, rfl, rfl, h3, pyStrip_idem pn⟩

lemma tableRecords_props {team : String} {model gam : Option String} {tb : TTable}
    {r : PlayerRecord} (h : r ∈ tableRecords team model gam tb) :
    r.team = team ∧ r.roster_model = pyOrEmpty model ∧
    r.team_gam_2025 = pyOrEmpty gam ∧ r.name ≠ "" ∧ pyStrip r.name = r.name := by
  unfold tableRecords at h
  split at h
  · simp at h
  · split at h
    · simp at h
    · split at h
      · split at h
        · simp at h
        · obtain ⟨row, _, hsome⟩ := List.mem_filterMap.mp h
          exact rowRecord_some_props hsome
      · simp at h

lemma tablesRecords_props {team : String} {model gam : Option String}
    {r : PlayerRecord} :
    ∀ {tbs : List TTable}, r ∈ tablesRecords team model gam tbs →
      r.team = team ∧ r.roster_model = pyOrEmpty model ∧
      r.team_gam_2025 = pyOrEmpty gam ∧ r.name ≠ "" ∧ pyStrip r.name = r.name := by
  intro tbs
  induction tbs with
  | nil => intro h; simp [tablesRecords] at h
  | cons tb tbs ih =>
    intro h
    rcases List.mem_append.mp h with h1 | h2
    · exact tableRecords_props h1
    · exact ih h2

lemma pageRecords_props {ctx : PageContext} {p : Page} {r : PlayerRecord}
    (h : r ∈ pageRecords ctx p) :
    ctx.team = some r.team ∧ r.team ≠ "" ∧
    r.roster_model = pyOrEmpty ctx.model ∧ r.team_gam_2025 = pyOrEmpty ctx.gam ∧
    r.name ≠ "" ∧ pyStrip r.name = r.name := by
  unfold pageRecords at h
  split at h
  · simp at h
  · rename_i t hteam
    split at h
    · simp at h
    · rename_i hne
      obtain ⟨h1, h2, h3, h4, h5⟩ := tablesRecords_props h
      exact ⟨by rw [hteam, h1], by rw [h1]; exact hne, h2, h3, h4, h5⟩

lemma gamMatch_none_of_not {text : String} (h : strContains text gamLit = false) :
    gamMatch text = none := by
  unfold gamMatch
  rw [searchLit_none gamLit.data gamAttempt text.data h]
  rfl

lemma updateContext_gam {ctx : PageContext} {text : String}
    (h : strContains text gamLit = false) :
    (updateContext ctx text).gam = ctx.gam := by
  simp [updateContext, gamMatch_none_of_not h]

lemma processPage_records_props {ctx : PageContext} {p : Page} {r : PlayerRecord}
    (h : r ∈ (processPage ctx p).2) :
    (processPage ctx p).1.team = some r.team ∧ r.team ≠ "" ∧
    r.roster_model = pyOrEmpty (processPage ctx p).1.model ∧
    r.team_gam_2025 = pyOrEmpty (processPage ctx p).1.gam ∧
    r.name ≠ "" ∧ pyStrip r.name = r.name := by
  by_cases ht : p.text = ""
  · simp only [processPage, if_pos ht] at h
    simp at h
  · simp only [processPage, if_neg ht] at h ⊢
    exact pageRecords_props h

lemma runPages_props {r : PlayerRecord} :
    ∀ (ps : List Page) (ctx : PageContext), r ∈ runPages ctx ps →
      r.team ≠ "" ∧ r.name ≠ "" ∧ pyStrip r.name = r.name := by
  intro ps
  induction ps with
  | nil => intro ctx h; simp [runPages] at h
  | cons p ps ih =>
    intro ctx h
    rw [runPages] at h
    rcases List.mem_append.mp h with h1 | h2
    · obtain ⟨_, hteam, _, _, h5, h6⟩ := processPage_records_props h1
      exact ⟨hteam, h5, h6⟩
    · exact ih (processPage ctx p).1 h2

lemma runPages_gam {r : PlayerRecord} :
    ∀ (ps : List Page) (ctx : PageContext), ctx.gam = none →
      (∀ p ∈ ps, strContains p.text gamLit = false) →
      r ∈ runPages ctx ps → r.team_gam_2025 = "" := by
  intro ps
  induction ps with
  | nil => intro ctx _ _ h; simp [runPages] at h
  | cons p ps ih =>
    intro ctx hg hall h
    rw [runPages] at h
    by_cases ht : p.text = ""
    · simp only [processPage, if_pos ht] at h
      rw [List.nil_append] at h
      exact ih ctx hg (fun q hq => hall q (List.mem_cons_of_mem p hq)) h
    · have hnew : (updateContext ctx p.text).gam = none := by
        rw [updateContext_gam (hall p (List.mem_cons_self p ps))]
        exact hg
      simp only [processPage, if_neg ht] at h
      rcases List.mem_append.mp h with h1 | h2
      · obtain ⟨_, _, _, h4, _, _⟩ := pageRecords_props h1
        rw [h4, hnew]
        rfl
      · exact ih (updateContext ctx p.text) hnew
          (fun q hq => hall q (List.mem_cons_of_mem p hq)) h2

lemma colStep_roleField (acc : ColIdx) (n : Nat) (h : String) (r : HRole) :
    roleField (colStep acc n h) r =
      if cellBranch acc.name_idx.isSome h = some r then some n else roleField acc r := by
  rcases acc with ⟨nf, df, sf, cf, opf⟩
  cases nf <;> cases r <;>
    simp [colStep, cellBranch, roleField] <;>
    split_ifs <;> simp_all

lemma cellBranch_true_ne_nm (h : String) : cellBranch true h ≠ some HRole.nm := by
  unfold cellBranch
  split_ifs <;> simp_all

lemma cellBranch_false_nm (h : String) :
    (cellBranch false h = some HRole.nm) ↔ strContains h "NAME" = true := by
  unfold cellBranch
  split_ifs <;> simp_all

lemma colStep_name_some {acc : ColIdx} {k : Nat} (n : Nat) (h : String)
    (hk : acc.name_idx = some k) : (colStep acc n h).name_idx = some k := by
  have hrf := colStep_roleField acc n h .nm
  simp only [roleField] at hrf
  rw [hk] at hrf
  simp only [Option.isSome_some] at hrf
  rw [if_neg (cellBranch_true_ne_nm h)] at hrf
  exact hrf

lemma colStep_name_none {acc : ColIdx} (n : Nat) (h : String)
    (hk : acc.name_idx = none) :
    (colStep acc n h).name_idx =
      if strContains h "NAME" then some n else none := by
  have hrf := colStep_roleField acc n h .nm
  simp only [roleField] at hrf
  rw [hk] at hrf
  simp only [Option.isSome_none] at hrf
  by_cases hn : strContains h "NAME" = true
  · rw [if_pos ((cellBranch_false_nm h).mpr hn)] at hrf
    rw [hrf, if_pos hn]
  · rw [if_neg (fun hc => hn ((cellBranch_false_nm h).mp hc))] at hrf
    rw [hrf, if_neg hn]

lemma findColsFrom_concat (xs : List String) (x : String) :
    ∀ (acc : ColIdx) (i : Nat),
      findColsFrom acc i (xs ++ [x]) = colStep (findColsFrom acc i xs) (i + xs.length) x := by
  induction xs with
  | nil => intro acc i; simp [findColsFrom]
  | cons hh t ih =>
    intro acc i
    rw [List.cons_append, findColsFrom, findColsFrom, ih]
    congr 1
    simp
    omega

lemma colStep_name_isSome (acc : ColIdx) (n : Nat) (h : String) :
    ((colStep acc n h).name_idx).isSome = (strContains h "NAME" || acc.name_idx.isSome) := by
  cases hk : acc.name_idx with
  | none => rw [colStep_name_none n h hk]; split_ifs <;> simp_all
  | some k => rw [colStep_name_some n h hk]; simp

lemma findColsFrom_name_isSome :
    ∀ (hs : List String) (acc : ColIdx) (i : Nat),
      ((findColsFrom acc i hs).name_idx).isSome =
        (acc.name_idx.isSome || hs.any (fun h => strContains h "NAME")) := by
  intro hs
  induction hs with
  | nil => intro acc i; simp [findColsFrom]
  | cons h t ih =>
    intro acc i
    rw [findColsFrom, ih, colStep_name_isSome]
    simp only [List.any_cons]
    cases acc.name_idx.isSome <;> cases strContains h "NAME" <;> simp

lemma findColsFrom_name :
    ∀ (hs : List String) (acc : ColIdx) (i : Nat),
      (findColsFrom acc i hs).name_idx =
        match acc.name_idx with
        | some n => some n
        | none => (firstIdx (fun h => strContains h "NAME") hs).map (· + i) := by
  intro hs
  induction hs with
  | nil => intro acc i; cases hk : acc.name_idx <;> simp [findColsFrom, hk, firstIdx]
  | cons h t ih =>
    intro acc i
    rw [findColsFrom, ih]
    cases hk : acc.name_idx with
    | some k => rw [colStep_name_some i h hk]
    | none =>
      rw [colStep_name_none i h hk]
      by_cases hn : strContains h "NAME" = true
      · rw [if_pos hn]
        simp [firstIdx, hn]
      · rw [if_neg hn]
        simp only [firstIdx, hn, if_neg]
        cases firstIdx (fun x => strContains x "NAME") t
        · simp
        · simp
          omega

lemma nameBefore_append (hs : List String) (h : String) (i : Nat) (hi : i ≤ hs.length) :
    nameBefore (hs ++ [h]) i = nameBefore hs i := by
  unfold nameBefore
  rw [List.take_append_of_le_length hi]

lemma nameBefore_length (hs : List String) (h : String) :
    nameBefore (hs ++ [h]) hs.length = hs.any (fun x => strContains x "NAME") := by
  unfold nameBefore
  rw [List.take_left]

lemma lastRole_concat (hs : List String) (h : String) (r : HRole) :
    lastRole (hs ++ [h]) r =
      if cellBranch (hs.any (fun x => strContains x "NAME")) h = some r then
        some hs.length
      else lastRole hs r := by
  unfold lastRole
  have hlen : (hs ++ [h]).length = hs.length + 1 := by simp
  rw [hlen, List.range_succ, List.filter_append]
  have hcong :
      List.filter
        (fun i => decide (cellBranch (nameBefore (hs ++ [h]) i) ((hs ++ [h]).getD i "") = some r))
        (List.range hs.length)
      = List.filter
        (fun i => decide (cellBranch (nameBefore hs i) (hs.getD i "") = some r))
        (List.range hs.length) := by
    apply List.filter_congr
    intro i hi
    have hilt : i < hs.length := List.mem_range.mp hi
    rw [nameBefore_append hs h i (Nat.le_of_lt hilt), List.getD_append _ _ _ _ hilt]
  rw [hcong]
  have hgd : (hs ++ [h]).getD hs.length "" = h := by
    rw [List.getD_append_right _ _ _ _ (Nat.le_refl _)]
    simp
  by_cases hc : cellBranch (hs.any (fun x => strContains x "NAME")) h = some r
  · rw [if_pos hc]
    have hf : List.filter
        (fun i => decide (cellBranch (nameBefore (hs ++ [h]) i) ((hs ++ [h]).getD i "") = some r))
        [hs.length] = [hs.length] := by
      simp [nameBefore_length, hgd, hc]
    rw [hf, List.getLast?_concat]
  · rw [if_neg hc]
    have hf : List.filter
        (fun i => decide (cellBranch (nameBefore (hs ++ [h]) i) ((hs ++ [h]).getD i "") = some r))
        [hs.length] = [] := by
      simp [nameBefore_length, hgd, hc]
    rw [hf, List.append_nil]

lemma headerTry0_pos {table : TTable}
    (h0 : strContains (joinSp (upperRow (table.headD []))) "ROSTER DESIGNATION" = true) :
    headerTry0 table = some (upperRow (table.headD []), 1) := by
  cases table with
  | nil => exact absurd h0 (by decide)
  | cons r0 rest =>
    simp only [List.headD_cons] at h0
    cases r0 with
    | nil => exact absurd h0 (by decide)
    | cons c cs =>
      unfold headerTry0
      simp only [List.headD_cons]
      rw [if_pos h0]

lemma headerTry0_neg {table : TTable}
    (h0 : strContains (joinSp (upperRow (table.headD []))) "ROSTER DESIGNATION" = false) :
    headerTry0 table = none := by
  cases table with
  | nil => rfl
  | cons r0 rest =>
    cases r0 with
    | nil => rfl
    | cons c cs =>
      unfold headerTry0
      simp only [List.headD_cons] at h0 ⊢
      rw [if_neg (by rw [h0]; exact Bool.false_ne_true)]

lemma resolveHeader_row0 {table : TTable}
    (h0 : strContains (joinSp (upperRow (table.headD []))) "ROSTER DESIGNATION" = true) :
    resolveHeader table = some (upperRow (table.headD []), 1) := by
  unfold resolveHeader
  rw [headerTry0_pos h0]

lemma resolveHeader_row1 {table : TTable}
    (h0 : strContains (joinSp (upperRow (table.headD []))) "ROSTER DESIGNATION" = false)
    (h1 : strContains (joinSp (upperRow (table.getD 1 []))) "ROSTER DESIGNATION" = true) :
    resolveHeader table = some (upperRow (table.getD 1 []), 2) := by
  unfold resolveHeader
  rw [headerTry0_neg h0]
  match table, h1 with
  | [], h1 => exact absurd h1 (by decide)
  | [r0], h1 =>
      have hg : ([r0] : TTable).getD 1 [] = [] := rfl
      rw [hg] at h1
      exact absurd h1 (by decide)
  | r0 :: r1 :: rest, h1 =>
      have hlen : (r0 :: r1 :: rest).length > 1 := by simp
      rw [if_pos hlen, if_pos h1]

lemma resolveHeader_none {table : TTable}
    (h0 : strContains (joinSp (upperRow (table.headD []))) "ROSTER DESIGNATION" = false)
    (h1 : strContains (joinSp (upperRow (table.getD 1 []))) "ROSTER DESIGNATION" = false) :
    resolveHeader table = none := by
  unfold resolveHeader
  rw [headerTry0_neg h0]
  by_cases hlen : table.length > 1
  · rw [if_pos hlen, if_neg (by rw [h1]; exact Bool.false_ne_true)]
  · rw [if_neg hlen]

lemma roleField_findCols (r : HRole) :
    ∀ hs : List String, roleField (findCols hs) r = lastRole hs r := by
  intro hs
  induction hs using List.reverseRecOn with
  | nil => cases r <;> rfl
  | append_singleton hs h ih =>
    rw [lastRole_concat]
    unfold findCols at *
    rw [findColsFrom_concat, colStep_roleField]
    have hS : ((findColsFrom ColIdx.init 0 hs).name_idx).isSome
        = hs.any (fun x => strContains x "NAME") := by
      rw [findColsFrom_name_isSome]
      rfl
    rw [hS, ih]
    by_cases hc : cellBranch (hs.any (fun x => strContains x "NAME")) h = some r
    · rw [if_pos hc, if_pos hc, Nat.zero_add]
    · rw [if_neg hc, if_neg hc]

/-! ## Claim theorems -/

/-- Claim C1 counterexample: the claim says the FIRST header cell
containing `DESIGNATION` becomes the designation role; on the header row
`["NAME", "A DESIGNATION", "B DESIGNATION"]` that would be index 1, but
the code assigns index 2 (each later `DESIGNATION` cell overwrites the
earlier one). -/
theorem C1_counterexample :
    ¬ ((findCols ["NAME", "A DESIGNATION", "B DESIGNATION"]).designation_idx = some 1) := by
  decide

/-- Claim C1 (amended): the name role is the index of the FIRST header
cell containing `NAME`; every other role holds the index of the LAST
header cell that reaches its branch of the `if`/`elif` chain (a cell
containing `NAME` is consumed by the name branch only while the name
role is still unassigned; otherwise the cell falls through to the first
later branch that matches it, and each subsequent match for a role
overwrites that role's earlier index). -/
theorem C1_header_roles (hs : List String) :
    (findCols hs).name_idx = firstIdx (fun h => strContains h "NAME") hs ∧
    (findCols hs).designation_idx = lastRole hs HRole.desig ∧
    (findCols hs).status_idx = lastRole hs HRole.status ∧
    (findCols hs).contract_idx = lastRole hs HRole.contract ∧
    (findCols hs).option_idx = lastRole hs HRole.opt := by
  refine ⟨?_, roleField_findCols HRole.desig hs, roleField_findCols HRole.status hs,
    roleField_findCols HRole.contract hs, roleField_findCols HRole.opt hs⟩
  show (findColsFrom ColIdx.init 0 hs).name_idx = _
  rw [findColsFrom_name hs ColIdx.init 0]
  show (firstIdx (fun h => strContains h "NAME") hs).map (· + 0) = _
  cases firstIdx (fun h => strContains h "NAME") hs <;> simp

/-- Claim C2 counterexample: the emitted columns are not exactly
`team, ..., roster_model, team_gam`: the last dictionary key written by
the code is `team_gam_2025`, not `team_gam`. -/
theorem C2_counterexample :
    playerDictKeys ≠
      ["team", "name", "roster_designation", "current_status", "contract_thru",
       "option_years", "category", "roster_model", "team_gam"] := by
  decide

/-- Claim C2 (amended): for every parsed document the record file has a
header row of exactly the columns `team, name, roster_designation,
current_status, contract_thru, option_years, category, roster_model,
team_gam_2025`, in that order, then one row per record with the nine
fields in that order and no index column. -/
theorem C2_output_schema (pages : List Page) :
    (csvTable (parseRosterPdf pages)).headD [] =
      ["team", "name", "roster_designation", "current_status", "contract_thru",
       "option_years", "category", "roster_model", "team_gam_2025"] ∧
    (csvTable (parseRosterPdf pages)).tail = (parseRosterPdf pages).map recordToRow ∧
    ∀ r : PlayerRecord,
      recordToRow r =
        [r.team, r.name, r.roster_designation, r.current_status, r.contract_thru,
         r.option_years, r.category, r.roster_model, r.team_gam_2025] ∧
      (recordToRow r).length = playerDictKeys.length :=
  ⟨rfl, rfl, fun _ => ⟨rfl, rfl⟩⟩

/-- Claim C3: every record produced while processing a page carries as
its team exactly the context team in effect for that page (the context
after that page's update), and in the concrete scenario
[A: team FC X, B: no team header, C: no team header] the records of
pages B and C all carry team `FC X`. -/
theorem C3_sticky_team :
    (∀ (ctx : PageContext) (p : Page) (r : PlayerRecord),
        r ∈ (processPage ctx p).2 → (processPage ctx p).1.team = some r.team) ∧
    (∀ r ∈ parseRosterPdf stickyPages, r.team = "FC X") ∧
    (parseRosterPdf stickyPages).length = 2 := by
  refine ⟨fun ctx p r hr => (processPage_records_props hr).1, by decide, by decide⟩

/-- Witness for C3: the record of page B under context team `X` gets
team `X`. -/
theorem C3_witness :
    (processPage ⟨some "X", none, none⟩ pageB).1.team = some bobUnderX.team :=
  C3_sticky_team.1 ⟨some "X", none, none⟩ pageB bobUnderX (by decide)

/-- Claim C4: a table whose row 0 (uppercased, space-joined) contains
`ROSTER DESIGNATION` resolves with data offset 1; else a table whose
row 1 contains it resolves with offset 2; a table with neither, or whose
resolved header lacks the token `NAME`, yields zero records and no
error. -/
theorem C4_header_precedence (table : TTable) (team : String) (model gam : Option String) :
    (strContains (joinSp (upperRow (table.headD []))) "ROSTER DESIGNATION" = true →
      resolveHeader table = some (upperRow (table.headD []), 1)) ∧
    (strContains (joinSp (upperRow (table.headD []))) "ROSTER DESIGNATION" = false →
      strContains (joinSp (upperRow (table.getD 1 []))) "ROSTER DESIGNATION" = true →
      resolveHeader table = some (upperRow (table.getD 1 []), 2)) ∧
    (strContains (joinSp (upperRow (table.headD []))) "ROSTER DESIGNATION" = false →
      strContains (joinSp (upperRow (table.getD 1 []))) "ROSTER DESIGNATION" = false →
      tableRecords team model gam table = []) ∧
    (∀ (hs : List String) (s : Nat), resolveHeader table = some (hs, s) →
      strContains (joinSp hs) "NAME" = false → tableRecords team model gam table = []) := by
  refine ⟨fun h0 => resolveHeader_row0 h0, fun h0 h1 => resolveHeader_row1 h0 h1, ?_, ?_⟩
  · intro h0 h1
    unfold tableRecords
    by_cases hl : table.length < 2
    · rw [if_pos hl]
    · rw [if_neg hl, resolveHeader_none h0 h1]
  · intro hs s hres hname
    unfold tableRecords
    by_cases hl : table.length < 2
    · rw [if_pos hl]
    · rw [if_neg hl]
      simp only [hres]
      rw [if_neg (by rw [hname]; exact Bool.false_ne_true)]

/-- Witness for C4: the minimal table resolves at row 0 with offset 1. -/
theorem C4_witness :
    resolveHeader minimalTable = some (upperRow (minimalTable.headD []), 1) :=
  (C4_header_precedence minimalTable "T" none none).1 (by decide)

/-- Claim C5: the category is derived by an ordered first-match-wins
substring test over the designation text, in the precedence Designated
Player / Young Designated, U22 Initiative, TAM Player, Homegrown,
Generation adidas, else Standard; in particular
"Young Designated Player (U22 Initiative eligible)" is classified as
"Designated Player". -/
theorem C5_category_precedence :
    (∀ d : String,
      ((strContains d "Designated Player" || strContains d "Young Designated") = true →
        categorize d = "Designated Player") ∧
      ((strContains d "Designated Player" || strContains d "Young Designated") = false →
        strContains d "U22 Initiative" = true → categorize d = "U22 Initiative") ∧
      ((strContains d "Designated Player" || strContains d "Young Designated") = false →
        strContains d "U22 Initiative" = false →
        strContains d "TAM Player" = true → categorize d = "TAM Player") ∧
      ((strContains d "Designated Player" || strContains d "Young Designated") = false →
        strContains d "U22 Initiative" = false → strContains d "TAM Player" = false →
        strContains d "Homegrown" = true → categorize d = "Homegrown") ∧
      ((strContains d "Designated Player" || strContains d "Young Designated") = false →
        strContains d "U22 Initiative" = false → strContains d "TAM Player" = false →
        strContains d "Homegrown" = false →
        strContains d "Generation adidas" = true → categorize d = "Generation Adidas") ∧
      ((strContains d "Designated Player" || strContains d "Young Designated") = false →
        strContains d "U22 Initiative" = false → strContains d "TAM Player" = false →
        strContains d "Homegrown" = false → strContains d "Generation adidas" = false →
        categorize d = "Standard")) ∧
    categorize "Young Designated Player (U22 Initiative eligible)" = "Designated Player" := by
  constructor
  · intro d
    refine ⟨fun h1 => by simp [categorize, h1],
            fun h1 h2 => by simp [categorize, h1, h2],
            fun h1 h2 h3 => by simp [categorize, h1, h2, h3],
            fun h1 h2 h3 h4 => by simp [categorize, h1, h2, h3, h4],
            fun h1 h2 h3 h4 h5 => by simp [categorize, h1, h2, h3, h4, h5],
            fun h1 h2 h3 h4 h5 => by simp [categorize, h1, h2, h3, h4, h5]⟩
  · decide

/-- Witness for C5: a designation containing only `U22 Initiative` gets
category `U22 Initiative`. -/
theorem C5_witness : categorize "x U22 Initiative y" = "U22 Initiative" :=
  ((C5_category_precedence.1 "x U22 Initiative y").2.1) (by decide) (by decide)

/-- Claim C6: the minimal two-row table under context team `FC Example`
(model and cap figure unset) yields exactly the stated single record. -/
theorem C6_round_trip :
    processPage ⟨some "FC Example", none, none⟩ ⟨"x", [minimalTable]⟩ =
      (⟨some "FC Example", none, none⟩,
       [{ team := "FC Example", name := "J. Smith", roster_designation := "Homegrown",
          current_status := "Active", contract_thru := "", option_years := "",
          category := "Homegrown", roster_model := "", team_gam_2025 := "" }]) := by
  decide

/-- Claim C7: optional-field extraction is total: an absent role, an
out-of-range index, or a null cell all give the empty string. -/
theorem C7_defensive_extraction (row : TRow) (i : Nat) :
    extractField row none = "" ∧
    (row.length ≤ i → extractField row (some i) = "") ∧
    (row.getD i none = none → extractField row (some i) = "") := by
  refine ⟨rfl, ?_, ?_⟩
  · intro h
    show (if i < row.length then _ else "") = ""
    rw [if_neg (by omega)]
  · intro h
    show (if i < row.length then
        match row.getD i none with
        | none => ""
        | some s => if s = "" then "" else pyStrip s
      else "") = ""
    by_cases hlt : i < row.length
    · rw [if_pos hlt, h]
    · rw [if_neg hlt]

/-- Witness for C7: index 3 is out of range for a one-cell row. -/
theorem C7_witness : extractField [some "x"] (some 3) = "" :=
  (C7_defensive_extraction [some "x"] 3).2.1 (by decide)

/-- Claim C8: a data row whose trimmed, uppercased name cell contains a
noise term yields no record; in particular a row whose name cell is
`Senior Roster` yields none even with populated designation and status
cells. -/
theorem C8_noise_rows :
    (∀ (team : String) (model gam : Option String) (nidx : Nat) (cols : ColIdx)
        (row : TRow) (pn : String),
      row.getD nidx none = some pn →
      skipTerms.any (fun t => strContains (pyUpper (pyStrip pn)) t) = true →
      rowRecord team model gam nidx cols row = none) ∧
    rowRecord "T" none none 0 ColIdx.init
      [some "Senior Roster", some "Homegrown", some "Active"] = none := by
  constructor
  · intro team model gam nidx cols row pn hget hskip
    unfold rowRecord
    split
    · rfl
    · simp only [hget]
      by_cases h2 : pn = ""
      · simp [h2]
      · by_cases h3 : pyStrip pn = ""
        · simp [h2, h3]
        · simp [h2, h3, hskip]
  · decide

/-- Witness for C8: a row whose name cell contains the noise term
`NO.` is skipped. -/
theorem C8_witness :
    rowRecord "T" none none 0 ColIdx.init [some "NO. 5"] = none :=
  C8_noise_rows.1 "T" none none 0 ColIdx.init [some "NO. 5"] "NO. 5"
    (by decide) (by decide)

/-- Claim C9 counterexample: the text `2025 GAM AVAILABLE ,` contains
the literal followed by a comma and no digit at all, yet the cap figure
IS updated (to the empty string) — so the update does not require digits
after the label, refuting the claim as stated. -/
theorem C9_counterexample :
    (updateContext ⟨none, none, none⟩ "2025 GAM AVAILABLE ,").gam = some "" ∧
    "2025 GAM AVAILABLE ,".data = gamLit.data ++ [' ', ','] ∧
    (∀ c ∈ [' ', ','], c.isDigit = false) := by
  decide

/-- Claim C9 (amended): the cap figure is updated only when the page
text contains the literal `2025 GAM AVAILABLE` followed by optional
whitespace, an optional dollar sign and at least one digit-or-comma
character (the captured run may consist of commas only); and for every
document whose page texts never contain that literal, the cap figure is
never set and every emitted record's cap-figure field is empty. -/
theorem C9_gam_update :
    (∀ (text v : String), gamMatch text = some v →
      ∃ pre suf : List Char, text.data = pre ++ gamLit.data ++ suf ∧
        v.data = (dropDollar (suf.dropWhile isPySpace)).takeWhile isDigitComma ∧
        v.data ≠ [] ∧ v.data.all isDigitComma = true) ∧
    (∀ text : String, strContains text gamLit = false → gamMatch text = none) ∧
    (∀ pages : List Page, (∀ p ∈ pages, strContains p.text gamLit = false) →
      ∀ r ∈ parseRosterPdf pages, r.team_gam_2025 = "") := by
  refine ⟨?_, fun text h => gamMatch_none_of_not h, ?_⟩
  · intro text v h
    unfold gamMatch at h
    obtain ⟨w, hw, hv⟩ := Option.map_eq_some'.mp h
    obtain ⟨pre, suf, hcs, hatt⟩ := searchLit_some gamLit.data gamAttempt text.data w hw
    unfold gamAttempt at hatt
    by_cases hd : ((dropDollar (suf.dropWhile isPySpace)).takeWhile isDigitComma).isEmpty = true
    · rw [if_pos hd] at hatt
      exact Option.noConfusion hatt
    · rw [if_neg hd] at hatt
      obtain rfl := Option.some.inj hatt
      have hvd : v.data = (dropDollar (suf.dropWhile isPySpace)).takeWhile isDigitComma := by
        rw [← hv]
      refine ⟨pre, suf, hcs, hvd, ?_, ?_⟩
      · rw [hvd]
        intro hne
        exact hd (by rw [hne]; rfl)
      · rw [hvd]
        exact List.all_eq_true.mpr (fun x hx => List.mem_takeWhile_imp hx)
  · intro pages hall r hr
    exact runPages_gam (pages.drop 3) ⟨none, none, none⟩ rfl
      (fun p hp => hall p (List.mem_of_mem_drop hp)) hr

/-- Witness for C9: a page text without the literal produces no GAM
match. -/
theorem C9_witness : gamMatch "B" = none :=
  C9_gam_update.2.1 "B" (by decide)

/-- Claim C10: every emitted record has a non-empty team and a
non-empty, fully-trimmed name; a page whose context has no team yields
no records; a row whose name cell is null or whitespace-only yields no
record. -/
theorem C10_record_invariants :
    (∀ (pages : List Page) (r : PlayerRecord), r ∈ parseRosterPdf pages →
      r.team ≠ "" ∧ r.name ≠ "" ∧ pyStrip r.name = r.name) ∧
    (∀ (ctx : PageContext) (p : Page), (processPage ctx p).1.team = none →
      (processPage ctx p).2 = []) ∧
    (∀ (team : String) (model gam : Option String) (nidx : Nat) (cols : ColIdx)
        (row : TRow),
      (row.getD nidx none = none → rowRecord team model gam nidx cols row = none) ∧
      (∀ pn : String, row.getD nidx none = some pn → pyStrip pn = "" →
        rowRecord team model gam nidx cols row = none)) := by
  refine ⟨?_, ?_, ?_⟩
  · intro pages r hr
    exact runPages_props (pages.drop 3) ⟨none, none, none⟩ hr
  · intro ctx p hteam
    by_cases ht : p.text = ""
    · simp [processPage, ht]
    · simp only [processPage, if_neg ht] at hteam ⊢
      unfold pageRecords
      rw [hteam]
  · intro team model gam nidx cols row
    constructor
    · intro h
      unfold rowRecord
      split
      · rfl
      · simp only [h]
    · intro pn h hstrip
      unfold rowRecord
      split
      · rfl
      · simp only [h]
        by_cases h2 : pn = ""
        · simp [h2]
        · simp [h2, hstrip]

/-- Witness for C10: the record of page B in the sticky scenario has a
non-empty team and a trimmed, non-empty name. -/
theorem C10_witness :
    bobSticky.team ≠ "" ∧ bobSticky.name ≠ "" ∧ pyStrip bobSticky.name = bobSticky.name :=
  C10_record_invariants.1 stickyPages bobSticky (by decide)

end RosterParse
